import Mathlib

/-!
Verification of the Finding Reconciliation Engine of sonar-tools
(`sonar/findings.py`): the finding data model, the `line` normalization,
the derived file path, the strict / approximate matchers, the sync
policy, the changelog short-circuit, and the `search_siblings` driver.

Python `None` is modelled with `Option`; Python exceptions raised by the
embedded fragments are modelled with `Except PyError`; datetimes are
modelled as integer timestamps (only their ordering is used).
-/

/-- Python-level errors that the embedded code fragments can raise. -/
inductive PyError where
  | typeError (msg : String) : PyError
deriving Repr, DecidableEq

/-- Raw value found in the `line` (or `lineNumber`) field of a finding
record: absent, a JSON integer, or a string. `Finding._load_common`
normalizes this value. -/
inductive RawLine where
  | absent : RawLine
  | intVal (n : Int) : RawLine
  | strVal (s : String) : RawLine
deriving Repr, DecidableEq

/-- The dynamic keyword-argument waivers accepted by the matcher
(`ignore_message`, `ignore_line`, `ignore_author`, `ignore_type`,
`ignore_severity`). A field is `none` when the keyword is not passed at
all, and `some b` when it is passed with value `b`: the distinction
matters because Python raises a `TypeError` as soon as an unexpected
keyword is present, whatever its value. `ignore_component` is a named
parameter of its own in the source, not part of `**kwargs`. -/
structure Kwargs where
  ignore_message : Option Bool
  ignore_line : Option Bool
  ignore_author : Option Bool
  ignore_type : Option Bool
  ignore_severity : Option Bool
deriving Repr, DecidableEq

/-- The empty `**kwargs` dictionary: no waiver keyword passed. -/
def Kwargs.isEmpty (k : Kwargs) : Bool :=
  k.ignore_message.isNone && k.ignore_line.isNone && k.ignore_author.isNone
    && k.ignore_type.isNone && k.ignore_severity.isNone

/-- `Kwargs` with no keyword passed. -/
def Kwargs.empty : Kwargs :=
  { ignore_message := none, ignore_line := none, ignore_author := none,
    ignore_type := none, ignore_severity := none }

/-- Normalized in-memory finding, the fields read by the matching core of
`sonar/findings.py`. `uuid` models the opaque identity returned by
`SqObject.uuid()` (defined outside this module); `changelog` models the
already-enriched changelog as the ordered list of its entry authors
(entries are only counted or mapped to their author by this core);
`startOffset` models `_json["textRange"]["startOffset"]` when present;
`jsonComponent` and `jsonPath` model `_json["component"]` and
`_json["path"]`. -/
structure Finding where
  key : String
  uuid : String
  rule : Option String
  hash : Option String
  message : Option String
  line : RawLine
  component : Option String
  author : Option String
  type : Option String
  severity : Option String
  jsonComponent : Option String
  jsonPath : Option String
  startOffset : Option Int
  changelog : List String
  modification_date : Int
deriving Repr, DecidableEq

/- ### Python `int()` coercion of strings -/

/-- Whitespace stripped by Python `int()` around a numeric string. -/
def pySpace (c : Char) : Bool :=
  c = ' ' || c = '\t' || c = '\n' || c = '\r' || c = '\x0b' || c = '\x0c'

/-- Numeric value of an ASCII digit. -/
def digitVal (c : Char) : Nat := c.toNat - '0'.toNat

/-- Continuation of a Python decimal digit run: further digits, with
single underscores allowed between digits. -/
def parseDigitTail (acc : Nat) : List Char → Option Nat
  | [] => some acc
  | c :: rest =>
    if c.isDigit then parseDigitTail (acc * 10 + digitVal c) rest
    else if c = '_' then
      match rest with
      | [] => none
      | d :: rest2 =>
        if d.isDigit then parseDigitTail (acc * 10 + digitVal d) rest2 else none
    else none

/-- A full Python decimal digit run (at least one digit, single
underscores allowed between digits). -/
def parsePyDigits : List Char → Option Nat
  | [] => none
  | c :: rest => if c.isDigit then parseDigitTail (digitVal c) rest else none

/-- Python `int(s)` on a string: strip surrounding whitespace, optional
sign, then a decimal digit run; `none` models `ValueError`. -/
def pyIntOfString (s : String) : Option Int :=
  let cs := (((s.toList.dropWhile pySpace).reverse.dropWhile pySpace)).reverse
  match cs with
  | '+' :: rest => (parsePyDigits rest).map (fun n => (n : Int))
  | '-' :: rest => (parsePyDigits rest).map (fun n => -(n : Int))
  | _ => (parsePyDigits cs).map (fun n => (n : Int))

/-- `line` normalization performed by `Finding._load_common`: the value
`"null"` becomes absent; then, if the value is present, `int()` coercion
is attempted and a `ValueError` is swallowed by `pass`, leaving the
value as it was. -/
def normalizeLine (raw : RawLine) : RawLine :=
  let v := if raw = RawLine.strVal "null" then RawLine.absent else raw
  match v with
  | RawLine.absent => RawLine.absent
  | RawLine.intVal n => RawLine.intVal n
  | RawLine.strVal s =>
    match pyIntOfString s with
    | some n => RawLine.intVal n
    | none => RawLine.strVal s

/- ### Derived file path (`Finding.file`) -/

/-- `leadsWith hay needle`: `needle` occurs at the head of `hay`. -/
def leadsWith : List Char → List Char → Bool
  | _, [] => true
  | [], _ :: _ => false
  | a :: ar, b :: br => (a == b) && leadsWith ar br

/-- `occursInFrom needle hay`: `needle` occurs somewhere in `hay`. -/
def occursInFrom (needle : List Char) : List Char → Bool
  | [] => needle.isEmpty
  | c :: rest => leadsWith (c :: rest) needle || occursInFrom needle rest

/-- Python substring membership `needle in hay` on strings. -/
def occursIn (needle hay : String) : Bool :=
  occursInFrom needle.toList hay.toList

/-- Positions `i` of `hay` at which `needle` occurs and whose preceding
prefix contains no newline — the candidate split points of the anchored
greedy pattern `(^.*)marker` (`.` does not cross newlines). -/
def matchPositions (hay needle : List Char) : List Nat :=
  (List.range (hay.length + 1)).filter
    (fun i => leadsWith (hay.drop i) needle && !((hay.take i).contains '\n'))

/-- `re.search("(^.*)" + marker, comp)` followed by `comp = m.group(1)`
when the pattern matches: the greedy `.*` keeps the prefix before the
last occurrence of `marker`; on no match `comp` is unchanged. -/
def regexCutBeforeLast (comp marker : String) : String :=
  match (matchPositions comp.toList marker.toList).getLast? with
  | some i => String.mk (comp.toList.take i)
  | none => comp

/-- Python `str.split(sep)` for a one-character separator: the list of
(possibly empty) segments between occurrences of `sep`. -/
def splitOnChar (sep : Char) : List Char → List (List Char)
  | [] => [[]]
  | c :: rest =>
    let r := splitOnChar sep rest
    if c = sep then [] :: r
    else
      match r with
      | [] => [[c]]
      | h :: t => (c :: h) :: t

/-- `comp.split(":")[-1]`: the final `:`-separated segment. -/
def lastColonSegment (comp : String) : String :=
  String.mk ((splitOnChar ':' comp.toList).getLastD [])

/-- `Finding.file()`: from `_json["component"]`, strip a
`:BRANCH:...` suffix, then a `:PULL_REQUEST:...` suffix, then take the
final `:`-separated segment; otherwise fall back to `_json["path"]`;
otherwise `None` (logged as a warning in the source). -/
def Finding.file (f : Finding) : Option String :=
  match f.jsonComponent with
  | some comp =>
    let comp1 := regexCutBeforeLast comp ":BRANCH:"
    let comp2 := regexCutBeforeLast comp1 ":PULL_REQUEST:"
    some (lastColonSegment comp2)
  | none =>
    match f.jsonPath with
    | some p => some p
    | none => none

deriving instance DecidableEq for Except

/- ### Sync policy (`modifiers`, `has_changelog`, `can_be_synced`) -/

/-- `Finding.has_changelog(added_after)` together with the number of
`changelog()` fetches it performs: when a cutoff is given and is strictly
later than the modification date, the method returns `False` before
consulting the changelog. -/
def Finding.has_changelog_trace (f : Finding) (added_after : Option Int) : Bool × Nat :=
  match added_after with
  | some t =>
    if f.modification_date < t then (false, 0)
    else (decide (0 < f.changelog.length), 1)
  | none => (decide (0 < f.changelog.length), 1)

/-- `Finding.has_changelog(added_after)`, result only. -/
def Finding.has_changelog (f : Finding) (added_after : Option Int) : Bool :=
  (f.has_changelog_trace added_after).1

/-- `Finding.modifiers()`: the set of distinct authors of the changelog
entries, as a duplicate-free list. -/
def Finding.modifiers (f : Finding) : List String :=
  f.changelog.dedup

/-- `Finding.can_be_synced(user_list)`: with no allowlist, syncable iff
the finding has no changelog; with an allowlist, syncable iff every
modifier belongs to it. -/
def Finding.can_be_synced (f : Finding) (user_list : Option (List String)) : Bool :=
  match user_list with
  | none => !(f.has_changelog none)
  | some ul => f.modifiers.all (fun u => ul.contains u)

/- ### Matcher -/

/-- The membership test `self.rule in ("python:S6540")` of
`strictly_identical_to`. The parenthesised operand is a plain string,
not a tuple, so Python performs a substring test; a `None` rule raises
`TypeError`. -/
def ruleMembershipS6540 : Option String → Except PyError Bool
  | none => Except.error (PyError.typeError "in <string> requires string as left operand, not NoneType")
  | some r => Except.ok (occursIn r "python:S6540")

/-- `Finding.strictly_identical_to(self, another_finding, ignore_component)`:
identical key short-circuits to true; when the receiver's rule passes the
`in ("python:S6540")` membership test and both findings carry a
text-range start offset, those offsets must match; then rule, hash,
message and derived file path must be equal, and component must be equal
unless ignored. -/
def Finding.strictly_identical_to (self_ another : Finding) (ignore_component : Bool) :
    Except PyError Bool :=
  if self_.key = another.key then Except.ok true
  else
    match ruleMembershipS6540 self_.rule with
    | Except.error e => Except.error e
    | Except.ok inTuple =>
      let prelim_check :=
        if inTuple then
          match self_.startOffset, another.startOffset with
          | some c1, some c2 => decide (c1 = c2)
          | _, _ => true
        else true
      Except.ok (decide (self_.rule = another.rule)
        && decide (self_.hash = another.hash)
        && decide (self_.message = another.message)
        && decide (self_.file = another.file)
        && (decide (self_.component = another.component) || ignore_component)
        && prelim_check)

/-- The score accumulated by `Finding.almost_identical_to` over its seven
weighted dimensions (message 2, file 2, line 1, component 1, author 1,
type 1, severity 1), each mismatch forgiven by its waiver when one
exists (file path has none). -/
def almostScore (self_ another : Finding) (ignore_component : Bool) (kw : Kwargs) : Nat :=
  (if self_.message = another.message ∨ kw.ignore_message.getD false = true then 2 else 0)
  + (if self_.file = another.file then 2 else 0)
  + (if self_.line = another.line ∨ kw.ignore_line.getD false = true then 1 else 0)
  + (if self_.component = another.component ∨ ignore_component = true then 1 else 0)
  + (if self_.author = another.author ∨ kw.ignore_author.getD false = true then 1 else 0)
  + (if self_.type = another.type ∨ kw.ignore_type.getD false = true then 1 else 0)
  + (if self_.severity = another.severity ∨ kw.ignore_severity.getD false = true then 1 else 0)

/-- `Finding.almost_identical_to(self, another_finding, ignore_component,
**kwargs)`: rule and hash equality are a hard gate, then the pair
matches iff the accumulated score reaches 7 (out of 9). -/
def Finding.almost_identical_to (self_ another : Finding) (ignore_component : Bool)
    (kw : Kwargs) : Bool :=
  if self_.rule ≠ another.rule ∨ self_.hash ≠ another.hash then false
  else decide (7 ≤ almostScore self_ another ignore_component kw)

/- ### Reconciliation driver (`search_siblings`) -/

/-- The `TypeError` raised when `search_siblings` forwards a non-empty
`**kwargs` to `strictly_identical_to`, whose signature accepts no
keyword argument beyond `another_finding` and `ignore_component`. -/
def strictKwargsError : PyError :=
  PyError.typeError "strictly_identical_to() got an unexpected keyword argument"

/-- First loop of `search_siblings`: scan candidates in order, skip the
candidate whose uuid equals the source's, and classify the first
strictly identical candidate, returning immediately with the three
accumulators as they stand (nothing else was appended before the hit).
The call `finding.strictly_identical_to(self, ignore_component, **kwargs)`
raises `TypeError` whenever `kwargs` is non-empty. -/
def exactPass (self_ : Finding) (au : Option (List String)) (ic : Bool) (kw : Kwargs) :
    List Finding → Except PyError (Option (List Finding × List Finding × List Finding))
  | [] => Except.ok none
  | finding :: rest =>
    if self_.uuid = finding.uuid then exactPass self_ au ic kw rest
    else if kw.isEmpty = false then Except.error strictKwargsError
    else
      match Finding.strictly_identical_to finding self_ ic with
      | Except.error e => Except.error e
      | Except.ok true =>
        if Finding.can_be_synced finding au then Except.ok (some ([finding], [], []))
        else Except.ok (some ([], [], [finding]))
      | Except.ok false => exactPass self_ au ic kw rest

/-- One iteration of the second loop of `search_siblings`: an almost
identical candidate is appended to `approx_matches` or
`match_but_modified` according to the sync policy; others are skipped. -/
def approxStep (self_ : Finding) (au : Option (List String)) (ic : Bool) (kw : Kwargs)
    (acc : List Finding × List Finding) (finding : Finding) : List Finding × List Finding :=
  if Finding.almost_identical_to finding self_ ic kw then
    if Finding.can_be_synced finding au then (acc.1 ++ [finding], acc.2)
    else (acc.1, acc.2 ++ [finding])
  else acc

/-- `Finding.search_siblings(self, findings_list, allowed_users,
ignore_component, **kwargs)`: the exact pass returns immediately on its
first hit; only when it falls through without a hit does the approximate
pass scan the full candidate list (with no uuid exclusion) and collect
all almost identical candidates. -/
def Finding.search_siblings (self_ : Finding) (findings_list : List Finding)
    (allowed_users : Option (List String)) (ignore_component : Bool) (kw : Kwargs) :
    Except PyError (List Finding × List Finding × List Finding) :=
  match exactPass self_ allowed_users ignore_component kw findings_list with
  | Except.error e => Except.error e
  | Except.ok (some result) => Except.ok result
  | Except.ok none =>
    let ap := findings_list.foldl (approxStep self_ allowed_users ignore_component kw) ([], [])
    Except.ok ([], ap.1, ap.2)

/-- Pointwise order on the waiver configuration: every waiver effectively
set on the left is also set on the right. -/
def waiversLe (ic : Bool) (kw : Kwargs) (ic' : Bool) (kw' : Kwargs) : Prop :=
  (ic = true → ic' = true) ∧
  (kw.ignore_message.getD false = true → kw'.ignore_message.getD false = true) ∧
  (kw.ignore_line.getD false = true → kw'.ignore_line.getD false = true) ∧
  (kw.ignore_author.getD false = true → kw'.ignore_author.getD false = true) ∧
  (kw.ignore_type.getD false = true → kw'.ignore_type.getD false = true) ∧
  (kw.ignore_severity.getD false = true → kw'.ignore_severity.getD false = true)

/- ### Concrete findings used by the witnesses and counterexamples -/

/-- A concrete finding (the classification fields a live search record
produces, changelog already enriched and empty). -/
def baseF : Finding :=
  { key := "k1", uuid := "u1", rule := some "java:S100", hash := some "h1",
    message := some "fix this", line := RawLine.intVal 10, component := some "c1",
    author := some "alice", type := some "BUG", severity := some "MAJOR",
    jsonComponent := some "proj:app/main.py", jsonPath := none,
    startOffset := none, changelog := [], modification_date := 100 }

/-- Same finding seen on another instance: identical key, distinct uuid. -/
def twinF : Finding := { baseF with uuid := "u2" }

/-- A candidate unrelated to `baseF`: different key, rule and hash. -/
def otherF : Finding :=
  { baseF with key := "k2", uuid := "u2", rule := some "java:S200", hash := some "h2" }

/-- `baseF` with a hash mismatch. -/
def hashMismF : Finding := { baseF with key := "k2", uuid := "u2", hash := some "hx" }

/-- `baseF` with a line mismatch. -/
def lineMismF : Finding :=
  { baseF with key := "k2", uuid := "u2", line := RawLine.intVal 11 }

/-- A finding whose changelog has authors `bob` (twice) and `carol`. -/
def modF : Finding := { baseF with changelog := ["bob", "bob", "carol"] }

/-- A finding with rule `python` — a proper substring of `python:S6540` —
and a text-range start offset. -/
def pyF : Finding := { baseF with rule := some "python", startOffset := some 5 }

/-- Same as `pyF` except for the key, the uuid and the start offset. -/
def pyOffF : Finding := { pyF with key := "k2", uuid := "u2", startOffset := some 9 }

/-- Same as `pyF` except for the key and the uuid (equal start offsets). -/
def pySameOffF : Finding := { pyF with key := "k3", uuid := "u3" }

/-- `**kwargs` equal to `dict(ignore_line=True)`. -/
def kwIgnoreLine : Kwargs := { Kwargs.empty with ignore_line := some true }

/-- `**kwargs` equal to `dict(ignore_message=True)`. -/
def kwIgnoreMessage : Kwargs := { Kwargs.empty with ignore_message := some true }

/- ### Helper lemmas -/

lemma ite_zero_le (c : Prop) [Decidable c] (k : Nat) : (if c then k else 0) ≤ k := by
  split <;> omega

lemma ite_mono_of_imp {c d : Prop} [Decidable c] [Decidable d] (k : Nat) (h : c → d) :
    (if c then k else 0) ≤ (if d then k else 0) := by
  by_cases hc : c
  · rw [if_pos hc, if_pos (h hc)]
  · rw [if_neg hc]
    exact Nat.zero_le _

lemma almostScore_le_nine (a b : Finding) (ic : Bool) (kw : Kwargs) :
    almostScore a b ic kw ≤ 9 := by
  unfold almostScore
  have h1 := ite_zero_le (a.message = b.message ∨ kw.ignore_message.getD false = true) 2
  have h2 := ite_zero_le (a.file = b.file) 2
  have h3 := ite_zero_le (a.line = b.line ∨ kw.ignore_line.getD false = true) 1
  have h4 := ite_zero_le (a.component = b.component ∨ ic = true) 1
  have h5 := ite_zero_le (a.author = b.author ∨ kw.ignore_author.getD false = true) 1
  have h6 := ite_zero_le (a.type = b.type ∨ kw.ignore_type.getD false = true) 1
  have h7 := ite_zero_le (a.severity = b.severity ∨ kw.ignore_severity.getD false = true) 1
  omega

lemma almost_identical_refl (f : Finding) (ic : Bool) (kw : Kwargs) :
    Finding.almost_identical_to f f ic kw = true := by
  unfold Finding.almost_identical_to
  rw [if_neg (by simp)]
  simp [almostScore]

lemma approxFold_eq (self_ : Finding) (au : Option (List String)) (ic : Bool) (kw : Kwargs)
    (l : List Finding) (a m : List Finding) :
    l.foldl (approxStep self_ au ic kw) (a, m) =
      (a ++ l.filter (fun g => Finding.almost_identical_to g self_ ic kw
              && Finding.can_be_synced g au),
       m ++ l.filter (fun g => Finding.almost_identical_to g self_ ic kw
              && !(Finding.can_be_synced g au))) := by
  induction l generalizing a m with
  | nil => simp
  | cons g rest ih =>
    simp only [List.foldl_cons, List.filter_cons]
    by_cases h1 : Finding.almost_identical_to g self_ ic kw = true
    · by_cases h2 : Finding.can_be_synced g au = true
      · rw [show approxStep self_ au ic kw (a, m) g = (a ++ [g], m) by
          simp [approxStep, h1, h2]]
        rw [ih]
        simp [h1, h2]
      · rw [show approxStep self_ au ic kw (a, m) g = (a, m ++ [g]) by
          simp [approxStep, h1, h2]]
        rw [ih]
        simp [h1, h2]
    · rw [show approxStep self_ au ic kw (a, m) g = (a, m) by simp [approxStep, h1]]
      rw [ih]
      simp [h1]

lemma exactPass_none (self_ : Finding) (au : Option (List String)) (ic : Bool) (kw : Kwargs)
    (l : List Finding) (hkw : kw.isEmpty = true)
    (h : ∀ x ∈ l, self_.uuid = x.uuid ∨ Finding.strictly_identical_to x self_ ic = Except.ok false) :
    exactPass self_ au ic kw l = Except.ok none := by
  induction l with
  | nil => rfl
  | cons g rest ih =>
    have hrest : ∀ x ∈ rest, self_.uuid = x.uuid
        ∨ Finding.strictly_identical_to x self_ ic = Except.ok false :=
      fun x hx => h x (List.mem_cons_of_mem _ hx)
    unfold exactPass
    by_cases h1 : self_.uuid = g.uuid
    · rw [if_pos h1]
      exact ih hrest
    · rw [if_neg h1, if_neg (by simp [hkw])]
      have hg : Finding.strictly_identical_to g self_ ic = Except.ok false :=
        (h g (List.mem_cons_self g rest)).resolve_left h1
      rw [hg]
      exact ih hrest

lemma exactPass_hit (self_ : Finding) (au : Option (List String)) (ic : Bool) (kw : Kwargs)
    (pre : List Finding) (c : Finding) (rest : List Finding)
    (hkw : kw.isEmpty = true)
    (hpre : ∀ x ∈ pre, self_.uuid = x.uuid
      ∨ Finding.strictly_identical_to x self_ ic = Except.ok false)
    (hc : self_.uuid ≠ c.uuid)
    (hstrict : Finding.strictly_identical_to c self_ ic = Except.ok true) :
    exactPass self_ au ic kw (pre ++ c :: rest) =
      Except.ok (some (if Finding.can_be_synced c au then ([c], [], []) else ([], [], [c]))) := by
  induction pre with
  | nil =>
    simp only [List.nil_append]
    unfold exactPass
    rw [if_neg hc, if_neg (by simp [hkw]), hstrict]
    by_cases h3 : Finding.can_be_synced c au = true
    · rw [if_pos h3, if_pos h3]
    · rw [if_neg h3, if_neg h3]
  | cons g pre2 ih =>
    have ih2 := ih (fun x hx => hpre x (List.mem_cons_of_mem _ hx))
    simp only [List.cons_append]
    unfold exactPass
    by_cases h1 : self_.uuid = g.uuid
    · rw [if_pos h1]
      exact ih2
    · rw [if_neg h1, if_neg (by simp [hkw])]
      have hg : Finding.strictly_identical_to g self_ ic = Except.ok false :=
        (hpre g (List.mem_cons_self g pre2)).resolve_left h1
      rw [hg]
      exact ih2

lemma exactPass_shape (self_ : Finding) (au : Option (List String)) (ic : Bool) (kw : Kwargs)
    (l : List Finding) (t : List Finding × List Finding × List Finding)
    (h : exactPass self_ au ic kw l = Except.ok (some t)) :
    (∃ x, t = ([x], [], [])) ∨ (∃ x, t = ([], [], [x])) := by
  induction l with
  | nil => simp [exactPass] at h
  | cons g rest ih =>
    unfold exactPass at h
    by_cases h1 : self_.uuid = g.uuid
    · rw [if_pos h1] at h
      exact ih h
    · rw [if_neg h1] at h
      by_cases h2 : kw.isEmpty = false
      · rw [if_pos h2] at h
        simp at h
      · rw [if_neg h2] at h
        cases hs : Finding.strictly_identical_to g self_ ic with
        | error e =>
          rw [hs] at h
          simp at h
        | ok b =>
          rw [hs] at h
          cases b with
          | false => exact ih h
          | true =>
            by_cases h3 : Finding.can_be_synced g au = true
            · rw [if_pos h3] at h
              simp at h
              exact Or.inl ⟨g, h.symm⟩
            · rw [if_neg h3] at h
              simp at h
              exact Or.inr ⟨g, h.symm⟩

lemma search_shape (self_ : Finding) (l : List Finding) (au : Option (List String))
    (ic : Bool) (kw : Kwargs) (e ap m : List Finding)
    (h : Finding.search_siblings self_ l au ic kw = Except.ok (e, ap, m)) :
    e.length ≤ 1 ∧ (e = [] ∨ ap = []) := by
  unfold Finding.search_siblings at h
  cases hep : exactPass self_ au ic kw l with
  | error er =>
    rw [hep] at h
    simp at h
  | ok o =>
    rw [hep] at h
    cases o with
    | none =>
      simp at h
      exact ⟨by simp [h.1], Or.inl h.1⟩
    | some t =>
      injection h with h2
      rcases exactPass_shape self_ au ic kw l t hep with ⟨x, hx⟩ | ⟨x, hx⟩ <;>
        rw [hx] at h2 <;> simp only [Prod.mk.injEq] at h2
      · exact ⟨by rw [← h2.1]; simp, Or.inr h2.2.1.symm⟩
      · exact ⟨by rw [← h2.1]; simp, Or.inl h2.1.symm⟩


lemma search_noexact (f : Finding) (pop : List Finding) (au : Option (List String))
    (ic : Bool) (kw : Kwargs)
    (hnone : exactPass f au ic kw pop = Except.ok none) :
    Finding.search_siblings f pop au ic kw =
      Except.ok ([],
        pop.filter (fun g => Finding.almost_identical_to g f ic kw
          && Finding.can_be_synced g au),
        pop.filter (fun g => Finding.almost_identical_to g f ic kw
          && !(Finding.can_be_synced g au))) := by
  unfold Finding.search_siblings
  rw [hnone]
  show Except.ok ([], (pop.foldl (approxStep f au ic kw) ([], [])).1,
      (pop.foldl (approxStep f au ic kw) ([], [])).2) = _
  rw [approxFold_eq]
  simp

/- ### Claim theorems -/

/-- Claim C2: `almost_identical_to` returns false whenever rule or hash
differ, regardless of every other dimension and of any waiver option;
otherwise the pair is an approximate match exactly when the accumulated
score (message 2, file 2, line 1, component 1, author 1, type 1,
severity 1, a waived dimension scoring its points even on mismatch, the
file path having no waiver) reaches 7 of the 9 available points. -/
theorem C2_almost_identical (a b : Finding) (ic : Bool) (kw : Kwargs) :
    ((a.rule ≠ b.rule ∨ a.hash ≠ b.hash) →
      Finding.almost_identical_to a b ic kw = false) ∧
    (a.rule = b.rule → a.hash = b.hash →
      (Finding.almost_identical_to a b ic kw = true ↔ 7 ≤ almostScore a b ic kw)) ∧
    almostScore a b ic kw ≤ 9 := by
  refine ⟨?_, ?_, almostScore_le_nine a b ic kw⟩
  · intro h
    unfold Finding.almost_identical_to
    rw [if_pos h]
  · intro h1 h2
    unfold Finding.almost_identical_to
    rw [if_neg (by simp [h1, h2])]
    simp

/-- Witness for C2: a concrete hash mismatch is rejected outright, and
the reflexive pair matches iff its score reaches the threshold. -/
theorem C2_witness :
    Finding.almost_identical_to baseF hashMismF false Kwargs.empty = false ∧
    (Finding.almost_identical_to baseF baseF false Kwargs.empty = true ↔
      7 ≤ almostScore baseF baseF false Kwargs.empty) :=
  ⟨(C2_almost_identical baseF hashMismF false Kwargs.empty).1 (Or.inr (by decide)),
   (C2_almost_identical baseF baseF false Kwargs.empty).2.1 rfl rfl⟩

/-- Claim C3: `can_be_synced(f, None)` holds iff the changelog is empty;
`can_be_synced(f, allowlist)` holds iff every distinct changelog author
belongs to the allowlist, vacuously for an empty changelog. -/
theorem C3_can_be_synced (f : Finding) (ul : List String) :
    (Finding.can_be_synced f none = true ↔ f.changelog.length = 0) ∧
    (Finding.can_be_synced f (some ul) = true ↔ ∀ u ∈ Finding.modifiers f, u ∈ ul) ∧
    (f.changelog = [] → Finding.can_be_synced f (some ul) = true) := by
  refine ⟨?_, ?_, ?_⟩
  · simp [Finding.can_be_synced, Finding.has_changelog, Finding.has_changelog_trace]
  · simp [Finding.can_be_synced, List.all_eq_true]
  · intro h
    simp [Finding.can_be_synced, Finding.modifiers, h]

/-- Witness for C3: with changelog authors `bob, bob, carol`, the
finding can be synced against the allowlist containing both. -/
theorem C3_witness :
    Finding.can_be_synced modF (some ["bob", "carol"]) = true ∧
    Finding.can_be_synced baseF none = true :=
  ⟨(C3_can_be_synced modF ["bob", "carol"]).2.1.mpr (by decide),
   (C3_can_be_synced baseF []).1.mpr rfl⟩

/-- Claim C4: evaluation at the failing input. The claim states that
`search_siblings` returns its triple without raising for every waiver
keyword option set; but the source forwards the non-empty `**kwargs` to
`strictly_identical_to`, whose signature accepts no keyword argument, so
the call with `ignore_line=True` and one candidate with a different uuid
raises `TypeError`. With no waiver keyword the same call returns the
silent no-match triple. -/
theorem C4_code_evaluation :
    baseF.uuid ≠ otherF.uuid ∧
    Finding.search_siblings baseF [otherF] none false kwIgnoreLine =
      Except.error strictKwargsError ∧
    Finding.search_siblings baseF [otherF] none false Kwargs.empty =
      Except.ok ([], [], []) := by
  refine ⟨by decide, by decide, by decide⟩

/-- Claim C5: evaluation at the failing input. The source tests
`self.rule in ("python:S6540")`, whose parenthesised operand is a plain
string, so the test is a substring test: for rule `python` (a proper
substring, not equal to `python:S6540`) the start-offset comparison is
still performed, and two findings agreeing on rule, hash, message, file
and component but differing in start offset are not strictly identical;
with equal offsets they are. -/
theorem C5_code_evaluation :
    pyF.rule = some "python" ∧
    pyF.rule ≠ some "python:S6540" ∧
    Finding.strictly_identical_to pyF pyOffF false = Except.ok false ∧
    Finding.strictly_identical_to pyF pySameOffF false = Except.ok true := by
  refine ⟨rfl, by decide, by decide, by decide⟩

/-- Claim C6: a cutoff strictly later than the modification date makes
`has_changelog` return false without consulting the changelog (zero
fetches); on the boundary (cutoff equal to the modification date) the
changelog is consulted (one fetch) and decides the result. -/
theorem C6_changelog_cutoff (f : Finding) (t : Int) :
    (f.modification_date < t →
      Finding.has_changelog_trace f (some t) = (false, 0)) ∧
    (t = f.modification_date →
      Finding.has_changelog_trace f (some t) = (decide (0 < f.changelog.length), 1)) := by
  constructor
  · intro h
    simp [Finding.has_changelog_trace, h]
  · intro h
    subst h
    simp [Finding.has_changelog_trace]

/-- Witness for C6: cutoff 101 against modification date 100 short
circuits; cutoff 100 on the boundary consults the changelog. -/
theorem C6_witness :
    Finding.has_changelog_trace baseF (some 101) = (false, 0) ∧
    Finding.has_changelog_trace modF (some 100) =
      (decide (0 < modF.changelog.length), 1) :=
  ⟨(C6_changelog_cutoff baseF 101).1 (by decide),
   (C6_changelog_cutoff modF 100).2 (by decide)⟩

/-- Claim C7: the score of `almost_identical_to` is monotonic in the
waiver options (`ignore_message`, `ignore_line`, `ignore_component`,
`ignore_author`, `ignore_type`, `ignore_severity`): enlarging the set of
effective waivers can only raise the score, so an approximate match is
preserved under any superset of waivers. -/
theorem C7_waiver_monotonic (a b : Finding) (ic ic' : Bool) (kw kw' : Kwargs)
    (h : waiversLe ic kw ic' kw') :
    almostScore a b ic kw ≤ almostScore a b ic' kw' ∧
    (Finding.almost_identical_to a b ic kw = true →
      Finding.almost_identical_to a b ic' kw' = true) := by
  obtain ⟨h0, h1, h2, h3, h4, h5⟩ := h
  have hsc : almostScore a b ic kw ≤ almostScore a b ic' kw' := by
    unfold almostScore
    refine Nat.add_le_add (Nat.add_le_add (Nat.add_le_add (Nat.add_le_add
      (Nat.add_le_add (Nat.add_le_add ?_ ?_) ?_) ?_) ?_) ?_) ?_
    · exact ite_mono_of_imp 2 (fun hc => hc.elim Or.inl (fun hh => Or.inr (h1 hh)))
    · exact le_refl _
    · exact ite_mono_of_imp 1 (fun hc => hc.elim Or.inl (fun hh => Or.inr (h2 hh)))
    · exact ite_mono_of_imp 1 (fun hc => hc.elim Or.inl (fun hh => Or.inr (h0 hh)))
    · exact ite_mono_of_imp 1 (fun hc => hc.elim Or.inl (fun hh => Or.inr (h3 hh)))
    · exact ite_mono_of_imp 1 (fun hc => hc.elim Or.inl (fun hh => Or.inr (h4 hh)))
    · exact ite_mono_of_imp 1 (fun hc => hc.elim Or.inl (fun hh => Or.inr (h5 hh)))
  refine ⟨hsc, fun hm => ?_⟩
  unfold Finding.almost_identical_to at hm ⊢
  by_cases hg : a.rule ≠ b.rule ∨ a.hash ≠ b.hash
  · rw [if_pos hg] at hm
    simp at hm
  · rw [if_neg hg] at hm
    rw [if_neg hg]
    simp only [decide_eq_true_eq] at hm ⊢
    omega

/-- Witness for C7: a pair with a line mismatch only gains score when
`ignore_line=True` is added. -/
theorem C7_witness :
    almostScore baseF lineMismF false Kwargs.empty ≤
      almostScore baseF lineMismF false kwIgnoreLine ∧
    (Finding.almost_identical_to baseF lineMismF false Kwargs.empty = true →
      Finding.almost_identical_to baseF lineMismF false kwIgnoreLine = true) :=
  C7_waiver_monotonic baseF lineMismF false false Kwargs.empty kwIgnoreLine
    (by refine ⟨?_, ?_, ?_, ?_, ?_, ?_⟩ <;> intro hx <;> revert hx <;> decide)

/-- Claim C8 counterexample: when `int()` coercion fails (`"abc"`), the
source's `except ValueError: pass` leaves the raw string in place — the
`line` field is not left absent as the claim states. -/
theorem C8_counterexample :
    normalizeLine (RawLine.strVal "abc") = RawLine.strVal "abc" ∧
    normalizeLine (RawLine.strVal "abc") ≠ RawLine.absent := by
  refine ⟨by decide, by decide⟩

/-- Claim C8 amended: the literal string `"null"` becomes absent; a
numeric string is coerced to an integer; when integer coercion fails the
field keeps its raw string value unchanged (no exception is raised);
absent and integer values pass through. -/
theorem C8_amended (s : String) (n m : Int) :
    normalizeLine RawLine.absent = RawLine.absent ∧
    normalizeLine (RawLine.strVal "null") = RawLine.absent ∧
    normalizeLine (RawLine.intVal m) = RawLine.intVal m ∧
    (s ≠ "null" → pyIntOfString s = some n →
      normalizeLine (RawLine.strVal s) = RawLine.intVal n) ∧
    (s ≠ "null" → pyIntOfString s = none →
      normalizeLine (RawLine.strVal s) = RawLine.strVal s) := by
  refine ⟨rfl, by decide, rfl, ?_, ?_⟩ <;> intro hs hp <;> simp [normalizeLine, hs, hp]

/-- Witness for C8 (amended): `"42"` is coerced to 42, `"x7"` fails
coercion and is kept as the raw string. -/
theorem C8_witness :
    normalizeLine (RawLine.strVal "42") = RawLine.intVal 42 ∧
    normalizeLine (RawLine.strVal "x7") = RawLine.strVal "x7" :=
  ⟨(C8_amended "42" 42 0).2.2.2.1 (by decide) (by decide),
   (C8_amended "x7" 0 0).2.2.2.2 (by decide) (by decide)⟩

/-- Claim C9: with a component field, the file path is obtained by
stripping any `:BRANCH:...` then `:PULL_REQUEST:...` suffix and taking
the final `:`-separated segment; with no component field the raw path
field is returned; with neither the result is `None`. -/
theorem C9_file_path (f : Finding) :
    (∀ comp, f.jsonComponent = some comp →
      Finding.file f = some (lastColonSegment
        (regexCutBeforeLast (regexCutBeforeLast comp ":BRANCH:") ":PULL_REQUEST:"))) ∧
    (f.jsonComponent = none → ∀ p, f.jsonPath = some p → Finding.file f = some p) ∧
    (f.jsonComponent = none → f.jsonPath = none → Finding.file f = none) := by
  refine ⟨?_, ?_, ?_⟩
  · intro comp h
    simp [Finding.file, h]
  · intro h1 p h2
    simp [Finding.file, h1, h2]
  · intro h1 h2
    simp [Finding.file, h1, h2]

/-- Witness for C9 on the component shape documented in the source
(`"src:sonar/hot.py:BRANCH:somebranch"`). -/
theorem C9_witness :
    Finding.file { baseF with jsonComponent := some "src:sonar/hot.py:BRANCH:somebranch" } =
      some "sonar/hot.py" := by
  have h := (C9_file_path
      { baseF with jsonComponent := some "src:sonar/hot.py:BRANCH:somebranch" }).1
    "src:sonar/hot.py:BRANCH:somebranch" rfl
  rw [h]
  decide

/-- Claim C1 counterexample: a strictly identical, syncable candidate is
present, yet with `ignore_line=True` passed the call does not classify
it and return the triple — it raises `TypeError` instead (the non-empty
`**kwargs` is forwarded to `strictly_identical_to`). -/
theorem C1_counterexample :
    Finding.strictly_identical_to twinF baseF false = Except.ok true ∧
    Finding.can_be_synced twinF none = true ∧
    Finding.search_siblings baseF [twinF] none false kwIgnoreLine ≠
      Except.ok ([twinF], [], []) ∧
    Finding.search_siblings baseF [twinF] none false kwIgnoreLine =
      Except.error strictKwargsError := by
  refine ⟨by decide, by decide, by decide, by decide⟩

/-- Claim C1 amended: restricted to calls whose waiver keyword set is
empty (a non-empty set raises `TypeError`, see C4): the exact pass scans
candidates in input order, and at the first candidate other than the
source (by uuid) whose strict-identity check evaluates true (earlier
ones being skipped or evaluating false), that one candidate is
classified into `exact_matches` if it can be synced, else into
`match_but_modified`, and the call returns immediately; moreover, for
every option configuration, any returned triple carries at most one
exact match and never non-empty exact and approximate lists at once. -/
theorem C1_amended (f : Finding) (au : Option (List String)) (ic : Bool) (kw : Kwargs)
    (pre : List Finding) (c : Finding) (rest : List Finding)
    (hkw : kw.isEmpty = true)
    (hpre : ∀ x ∈ pre, f.uuid = x.uuid
      ∨ Finding.strictly_identical_to x f ic = Except.ok false)
    (hc : f.uuid ≠ c.uuid)
    (hstrict : Finding.strictly_identical_to c f ic = Except.ok true) :
    (Finding.search_siblings f (pre ++ c :: rest) au ic kw =
      Except.ok (if Finding.can_be_synced c au then ([c], [], []) else ([], [], [c]))) ∧
    ∀ (pop : List Finding) (e ap m : List Finding),
      Finding.search_siblings f pop au ic kw = Except.ok (e, ap, m) →
      e.length ≤ 1 ∧ (e = [] ∨ ap = []) := by
  constructor
  · unfold Finding.search_siblings
    rw [exactPass_hit f au ic kw pre c rest hkw hpre hc hstrict]
  · intro pop e ap m h
    exact search_shape f pop au ic kw e ap m h

/-- Witness for C1 (amended): the twin candidate is strictly identical
and syncable, so the call returns it as the single exact match. -/
theorem C1_witness :
    Finding.search_siblings baseF [twinF] none false Kwargs.empty =
      Except.ok ([twinF], [], []) := by
  have h := (C1_amended baseF none false Kwargs.empty [] twinF [] rfl
    (fun x hx => absurd hx (List.not_mem_nil x)) (by decide) (by decide)).1
  simp only [List.nil_append] at h
  rw [h]
  decide

/-- Claim C10 counterexample: the source finding's uuid occurs in the
population and no other candidate is strictly identical, yet with
`ignore_message=True` passed the call raises `TypeError` before the
approximate pass, so the source finding is not classified. -/
theorem C10_counterexample :
    baseF.uuid ≠ otherF.uuid ∧
    Finding.strictly_identical_to otherF baseF false = Except.ok false ∧
    Finding.search_siblings baseF [otherF, baseF] none false kwIgnoreMessage =
      Except.error strictKwargsError := by
  refine ⟨by decide, by decide, by decide⟩

/-- Claim C10 amended: restricted to calls whose waiver keyword set is
empty (a non-empty set raises `TypeError` once a candidate with a
different uuid is scanned, see C4): when the source finding's own uuid
occurs in the candidate population and every other candidate's
strict-identity check evaluates false, the source finding is skipped by
the exact pass but classified by the approximate pass (it scores 9
against itself) into `approx_matches` or `match_but_modified` according
to `can_be_synced`. -/
theorem C10_amended (f : Finding) (pop : List Finding) (au : Option (List String))
    (ic : Bool) (kw : Kwargs)
    (hkw : kw.isEmpty = true)
    (hmem : f ∈ pop)
    (hno : ∀ c ∈ pop, f.uuid ≠ c.uuid →
      Finding.strictly_identical_to c f ic = Except.ok false) :
    ∃ ap m, Finding.search_siblings f pop au ic kw = Except.ok ([], ap, m) ∧
      (Finding.can_be_synced f au = true → f ∈ ap) ∧
      (Finding.can_be_synced f au = false → f ∈ m) := by
  have hnone : exactPass f au ic kw pop = Except.ok none :=
    exactPass_none f au ic kw pop hkw (fun x hx => by
      by_cases h1 : f.uuid = x.uuid
      · exact Or.inl h1
      · exact Or.inr (hno x hx h1))
  refine ⟨_, _, search_noexact f pop au ic kw hnone, ?_, ?_⟩
  · intro hcs
    rw [List.mem_filter]
    exact ⟨hmem, by rw [almost_identical_refl, hcs]; rfl⟩
  · intro hcs
    rw [List.mem_filter]
    exact ⟨hmem, by rw [almost_identical_refl, hcs]; rfl⟩

/-- Witness for C10 (amended): a population consisting of the finding
itself yields it back through the approximate pass. -/
theorem C10_witness :
    ∃ ap m, Finding.search_siblings baseF [baseF] none false Kwargs.empty =
      Except.ok ([], ap, m) ∧
      (Finding.can_be_synced baseF none = true → baseF ∈ ap) ∧
      (Finding.can_be_synced baseF none = false → baseF ∈ m) :=
  C10_amended baseF [baseF] none false Kwargs.empty rfl (by simp)
    (by intro c hc h1; simp at hc; subst hc; exact absurd rfl h1)
